import Mathlib

/-!
Verification of `spreadsheet2markdown.py` (codeasice/spreadsheet2markdown).

The script converts spreadsheet rows to markdown files with YAML frontmatter.
We give a shallow embedding of its generation loop (source lines 138-223):
cell values are modelled as `Option String` (`none` is a pandas-missing value,
i.e. `pd.isna` holds; present scalars are modelled as their string rendering),
a row is an association list from column name to cell, and the result mapping
`markdown_files` is a Python dict modelled as an insertion-ordered association
list with last-write-wins update.  Python string methods `lower`, `replace`,
`strip` and `join` are modelled on Lean strings over their character lists
(`lower` via the ASCII `Char.toLower`, which agrees with Python on the ASCII
range).
-/

namespace S2M

/-- A spreadsheet cell: `none` models a missing value (`pd.isna`). -/
abbrev Cell := Option String

/-- A row: association list from column name to cell value. -/
abbrev Row := List (String × Cell)

/-- Look up a column in a row.  A column absent from the row behaves as a
missing value (the UI only offers columns of the uploaded frame, so selected
columns always exist). -/
def rowGet (row : Row) (col : String) : Option String :=
  match row.find? (fun e => e.1 == col) with
  | some e => e.2
  | none => none

/-- The uploaded data frame: its header columns and its rows in order. -/
structure Dataset where
  columns : List String
  rows : List Row

/-- The user's selections from the form (source lines 13-134).
`folder_col` is the raw selectbox value, whose choices are
`"None"` plus the frame's columns (line 39-43). -/
structure Config where
  output_dir : String
  filename_col : String
  folder_col : String
  properties_cols : List String
  list_properties : List (String × List String)
  labels_cols : List String
  sections_cols : List String

/-- Whether `p` is a leading piece of `s` (Python `s.startswith(p)`), computed
on the character lists so that the kernel can evaluate it. -/
def strStarts (s p : String) : Bool :=
  p.data.isPrefixOf s.data

/-- Whether `p` is a trailing piece of `s` (Python `s.endswith(p)`). -/
def strEnds (s p : String) : Bool :=
  p.data.reverse.isPrefixOf s.data.reverse

/-- The first `n` characters of `s` removed (Python `s[n:]` for ASCII text). -/
def strDrop (s : String) (n : Nat) : String :=
  String.mk (s.data.drop n)

/-- Python `s.strip()`: leading and trailing whitespace removed (modelled with
`Char.isWhitespace`, which covers the ASCII whitespace Python strips). -/
def pyStrip (s : String) : String :=
  String.mk (((s.data.dropWhile Char.isWhitespace).reverse.dropWhile Char.isWhitespace).reverse)

/-- Python `s.replace(' ', '_')`: every space becomes an underscore. -/
def pyReplaceSpace (s : String) : String :=
  String.mk (s.data.map (fun c => if c = ' ' then '_' else c))

/-- Python `s.lower()`, on the ASCII range (via `Char.toLower`). -/
def pyLower (s : String) : String :=
  String.mk (s.data.map Char.toLower)

/-- Source line 147: `f"{row[filename_col].replace(' ', '_').lower()}.md"`. -/
def mkFilename (fval : String) : String :=
  pyLower (pyReplaceSpace fval) ++ ".md"

/-- POSIX `os.path.join` of two components: if the second is absolute it wins;
joining onto an empty or slash-terminated head concatenates; otherwise a `/`
separator is inserted. -/
def ospJoin (a b : String) : String :=
  if strStarts b "/" then b
  else if a = "" ∨ strEnds a "/" then a ++ b
  else a ++ "/" ++ b

/-- Models `os.path.relpath path start` for the paths this program builds:
when `path` lies strictly under `start` the leading `start ++ "/"` is removed;
otherwise the path is returned unchanged.  (Python's `relpath` additionally
normalises `.`/`..` segments, which never occur in the paths produced here
for an output directory free of such segments.) -/
def ospRelpath (path start : String) : String :=
  if strStarts path (start ++ "/") then strDrop path (start.data.length + 1) else path

/-- Source lines 150-155: the output path of one row.  If a folder column is
configured (selectbox value differs from `"None"`) and the row's folder value
is present, its normalised form is interposed between the output root and the
filename; otherwise the filename sits directly under the output root. -/
def filePath (cfg : Config) (row : Row) (filename : String) : String :=
  if cfg.folder_col ≠ "None" then
    match rowGet row cfg.folder_col with
    | some fv => ospJoin (ospJoin cfg.output_dir (pyLower (pyReplaceSpace fv))) filename
    | none => ospJoin cfg.output_dir filename
  else ospJoin cfg.output_dir filename

/-- Source lines 163-165: `key: value` lines for the selected property
columns, appended in selection order, skipping columns whose value is missing
(or not in the frame). -/
def propsBlock (columns : List String) (pcols : List String) (row : Row) : String :=
  pcols.foldl (fun acc col =>
    if col ∈ columns then
      match rowGet row col with
      | some v => acc ++ pyLower col ++ ": " ++ v ++ "\n"
      | none => acc
    else acc) ""

/-- Source lines 169-172: the stripped present values of a list-property's
source columns, in column order. -/
def listPropValues (row : Row) (cols : List String) : List String :=
  cols.foldl (fun acc col =>
    match rowGet row col with
    | some v => acc ++ [pyStrip v]
    | none => acc) []

/-- Source lines 173-176: a list-property block `name:` followed by
`  - value` lines, emitted only when at least one value was collected. -/
def listPropBlock (row : Row) (name : String) (cols : List String) : String :=
  if (listPropValues row cols).isEmpty then ""
  else (listPropValues row cols).foldl
    (fun acc v => acc ++ "  - " ++ v ++ "\n") (name ++ ":\n")

/-- Source line 168: all configured list-property blocks in order. -/
def listPropsBlock (row : Row) (lps : List (String × List String)) : String :=
  lps.foldl (fun acc lp => acc ++ listPropBlock row lp.1 lp.2) ""

/-- Source line 179: the label values, in selection order, of the label
columns that are in the frame and have a present value. -/
def labelsList (columns : List String) (lcols : List String) (row : Row) : List String :=
  lcols.filterMap (fun col => if col ∈ columns then rowGet row col else none)

/-- Source lines 179-181: the inline `labels: [v1, v2, ...]` line, emitted
only when at least one label value is present. -/
def labelsLine (columns : List String) (lcols : List String) (row : Row) : String :=
  if (labelsList columns lcols row).isEmpty then ""
  else "labels: [" ++ String.intercalate ", " (labelsList columns lcols row) ++ "]\n"

/-- The frontmatter body between the two `---` delimiters: property lines,
then list-property blocks, then the labels line (source lines 162-181). -/
def frontmatter (cfg : Config) (columns : List String) (row : Row) : String :=
  propsBlock columns cfg.properties_cols row
    ++ listPropsBlock row cfg.list_properties
    ++ labelsLine columns cfg.labels_cols row

/-- Source lines 186-188: one `## col` section per selected section column
with a present value, header and value each followed by a blank line. -/
def sectionsBlock (columns : List String) (scols : List String) (row : Row) : String :=
  scols.foldl (fun acc col =>
    if col ∈ columns then
      match rowGet row col with
      | some v => acc ++ "## " ++ col ++ "\n\n" ++ v ++ "\n\n"
      | none => acc
    else acc) ""

/-- Source lines 160-188: the full markdown text of one row. -/
def mdContent (cfg : Config) (columns : List String) (row : Row) : String :=
  "---\n" ++ frontmatter cfg columns row ++ "---\n\n"
    ++ sectionsBlock columns cfg.sections_cols row

/-- One loop iteration's produced (path, content) pair (source lines 145-188).
`none` models the uncaught `AttributeError` raised at line 147 when the
filename cell is missing: `row[filename_col]` is then `NaN`, which has no
`.replace`, and the whole run aborts. -/
def genRow (cfg : Config) (columns : List String) (row : Row) : Option (String × String) :=
  (rowGet row cfg.filename_col).map (fun fval =>
    (filePath cfg row (mkFilename fval), mdContent cfg columns row))

/-- Python dict assignment `d[k] = v` on an insertion-ordered association
list: an existing key keeps its position and gets the new value, a new key is
appended. -/
def dictInsert (d : List (String × String)) (k v : String) : List (String × String) :=
  if d.any (fun e => e.1 == k) then
    d.map (fun e => if e.1 == k then (k, v) else e)
  else d ++ [(k, v)]

/-- Python dict read `d[k]` (as an option). -/
def dictLookup (d : List (String × String)) (k : String) : Option String :=
  (d.find? (fun e => e.1 == k)).map Prod.snd

/-- The generation loop over the rows (source lines 145-191), threading the
`markdown_files` dict; `none` models the abort on a missing filename cell. -/
def transformGo (cfg : Config) (columns : List String) :
    List Row → List (String × String) → Option (List (String × String))
  | [], acc => some acc
  | r :: rs, acc =>
    match genRow cfg columns r with
    | some pc => transformGo cfg columns rs (dictInsert acc pc.1 pc.2)
    | none => none

/-- The whole batch transformation: the `markdown_files` mapping in insertion
order, or `none` when the run aborts. -/
def transform (cfg : Config) (ds : Dataset) : Option (List (String × String)) :=
  transformGo cfg ds.columns ds.rows []

/-- Source line 195: `list(markdown_files.items())[0]`, the preview of the
first generated document; on an empty mapping the subscript raises an uncaught
`IndexError`, modelled as `none`. -/
def previewFirst (m : List (String × String)) : Option (String × String) :=
  m.head?

/-- The generation flow as triggered by the button: transform all rows, then
take the first document for the preview (source lines 138-197). `none` models
an uncaught exception anywhere along the way. -/
def generateWithPreview (cfg : Config) (ds : Dataset) :
    Option ((String × String) × List (String × String)) :=
  match transform cfg ds with
  | some m =>
    match previewFirst m with
    | some f => some (f, m)
    | none => none
  | none => none

/-- Source lines 204-208: the ZIP archive, one entry per dict entry in dict
order, each at the path made relative to the output root, with the markdown
text as content. -/
def buildZip (m : List (String × String)) (out : String) : List (String × String) :=
  m.foldl (fun acc e => acc ++ [(ospRelpath e.1 out, e.2)]) []

/-! ### Character-level facts about lowercasing -/

theorem toLower_ne_space (c : Char) (h : c ≠ ' ') : Char.toLower c ≠ ' ' := by
  unfold Char.toLower
  by_cases hc : c.toNat ≥ 65 ∧ c.toNat ≤ 90
  · simp only [if_pos hc]
    intro heq
    have h2 : (Char.ofNat (c.toNat + 32)).toNat = 32 := by rw [heq]; decide
    have h3 : Nat.isValidChar (c.toNat + 32) := by left; omega
    rw [Char.ofNat, dif_pos h3] at h2
    have h4 : (Char.ofNatAux (c.toNat + 32) h3).toNat = c.toNat + 32 := rfl
    omega
  · simpa only [if_neg hc] using h

theorem toLower_replace_comm (c : Char) :
    Char.toLower (if c = ' ' then '_' else c)
      = (if Char.toLower c = ' ' then '_' else Char.toLower c) := by
  by_cases h : c = ' '
  · subst h; decide
  · rw [if_neg h, if_neg (toLower_ne_space c h)]

/-- Lowercasing and space-to-underscore substitution commute, so the
source's replace-then-lower order (line 147) computes the spec's
lowercase-then-replace description. -/
theorem pyLower_pyReplaceSpace (s : String) :
    pyLower (pyReplaceSpace s) = pyReplaceSpace (pyLower s) := by
  simp only [pyLower, pyReplaceSpace, List.map_map]
  exact congrArg String.mk (List.map_congr_left (fun c _ => toLower_replace_comm c))

/-! ### A generic shape for the `md_content +=` loops -/

/-- Concatenation of a list of strings, by right fold. -/
def strConcat (l : List String) : String :=
  l.foldr (fun s acc => s ++ acc) ""

@[simp] theorem strConcat_nil : strConcat [] = "" := rfl

@[simp] theorem strConcat_cons (s : String) (l : List String) :
    strConcat (s :: l) = s ++ strConcat l := rfl

/-- A left fold that appends one emitted string per element equals the initial
accumulator followed by the concatenation of the emissions. -/
theorem foldl_emit {α : Type} (f : String → α → String) (g : α → String)
    (hf : ∀ acc x, f acc x = acc ++ g x) :
    ∀ (l : List α) (init : String), l.foldl f init = init ++ strConcat (l.map g) := by
  intro l
  induction l with
  | nil => intro init; simp
  | cons x xs ih =>
    intro init
    simp only [List.foldl_cons, List.map_cons, strConcat_cons]
    rw [hf, ih, String.append_assoc]

/-- The list counterpart, for the loop that appends archive entries. -/
theorem foldl_emit_list {α β : Type} (f : List β → α → List β) (g : α → List β)
    (hf : ∀ acc x, f acc x = acc ++ g x) :
    ∀ (l : List α) (init : List β), l.foldl f init = init ++ (l.map g).flatten := by
  intro l
  induction l with
  | nil => intro init; simp
  | cons x xs ih =>
    intro init
    simp only [List.foldl_cons, List.map_cons, List.flatten_cons]
    rw [hf, ih, List.append_assoc]

/-! ### Characterizations of the frontmatter blocks -/

/-- The property lines as the spec words them: one `key: value` line (key
lowercased) per selected property column whose value is present, in selection
order; missing values are skipped per-field. -/
def specPropLines (columns : List String) (pcols : List String) (row : Row) : List String :=
  pcols.filterMap (fun col =>
    if col ∈ columns then
      (rowGet row col).map (fun v => pyLower col ++ ": " ++ v ++ "\n")
    else none)

theorem specPropLines_cons_some (columns : List String) (row : Row) (c : String)
    (cs : List String) (v : String) (hc : c ∈ columns) (hv : rowGet row c = some v) :
    specPropLines columns (c :: cs) row
      = (pyLower c ++ ": " ++ v ++ "\n") :: specPropLines columns cs row := by
  simp [specPropLines, List.filterMap_cons, hc, hv]

theorem specPropLines_cons_skip (columns : List String) (row : Row) (c : String)
    (cs : List String) (h : c ∉ columns ∨ rowGet row c = none) :
    specPropLines columns (c :: cs) row = specPropLines columns cs row := by
  rcases h with h | h
  · simp [specPropLines, List.filterMap_cons, h]
  · by_cases hc : c ∈ columns
    · simp [specPropLines, List.filterMap_cons, hc, h]
    · simp [specPropLines, List.filterMap_cons, hc]

theorem propsBlock_eq (columns pcols : List String) (row : Row) :
    propsBlock columns pcols row = strConcat (specPropLines columns pcols row) := by
  have aux : ∀ (l : List String) (init : String),
      l.foldl (fun acc col =>
        if col ∈ columns then
          match rowGet row col with
          | some v => acc ++ pyLower col ++ ": " ++ v ++ "\n"
          | none => acc
        else acc) init = init ++ strConcat (specPropLines columns l row) := by
    intro l
    induction l with
    | nil => intro init; simp [specPropLines]
    | cons c cs ih =>
      intro init
      rw [List.foldl_cons, ih]
      by_cases hc : c ∈ columns
      · cases hv : rowGet row c with
        | some v =>
          rw [specPropLines_cons_some columns row c cs v hc hv, strConcat_cons]
          simp only [if_pos hc, hv, String.append_assoc]
        | none =>
          rw [specPropLines_cons_skip columns row c cs (Or.inr hv)]
          simp only [if_pos hc, hv]
      · rw [specPropLines_cons_skip columns row c cs (Or.inl hc)]
        simp only [if_neg hc]
  simpa [propsBlock] using aux pcols ""

/-- The collected values of a list-property as the spec words them: the
present values of the source columns, trimmed, in column order. -/
def specListValues (row : Row) (cols : List String) : List String :=
  cols.filterMap (fun c => (rowGet row c).map pyStrip)

theorem specListValues_cons_some (row : Row) (c : String) (cs : List String)
    (v : String) (hv : rowGet row c = some v) :
    specListValues row (c :: cs) = pyStrip v :: specListValues row cs := by
  simp [specListValues, List.filterMap_cons, hv]

theorem specListValues_cons_none (row : Row) (c : String) (cs : List String)
    (hv : rowGet row c = none) :
    specListValues row (c :: cs) = specListValues row cs := by
  simp [specListValues, List.filterMap_cons, hv]

theorem listPropValues_eq (row : Row) (cols : List String) :
    listPropValues row cols = specListValues row cols := by
  have aux : ∀ (l : List String) (init : List String),
      l.foldl (fun acc col =>
        match rowGet row col with
        | some v => acc ++ [pyStrip v]
        | none => acc) init = init ++ specListValues row l := by
    intro l
    induction l with
    | nil => intro init; simp [specListValues]
    | cons c cs ih =>
      intro init
      rw [List.foldl_cons, ih]
      cases hv : rowGet row c with
      | some v =>
        rw [specListValues_cons_some row c cs v hv]
        simp only [hv]
        simp
      | none =>
        rw [specListValues_cons_none row c cs hv]
  simpa [listPropValues] using aux cols []

theorem listPropBlock_eq (row : Row) (name : String) (cols : List String) :
    listPropBlock row name cols =
      if listPropValues row cols = [] then ""
      else name ++ ":\n"
        ++ strConcat ((listPropValues row cols).map (fun v => "  - " ++ v ++ "\n")) := by
  unfold listPropBlock
  by_cases h : listPropValues row cols = []
  · simp [h]
  · have he : (listPropValues row cols).isEmpty = false := by
      simpa [List.isEmpty_iff] using h
    rw [he, if_neg h]
    simp only [Bool.false_eq_true, if_false]
    rw [foldl_emit (fun acc v => acc ++ "  - " ++ v ++ "\n") (fun v => "  - " ++ v ++ "\n")
      (fun acc v => by simp [String.append_assoc])]

theorem listPropsBlock_eq (row : Row) (lps : List (String × List String)) :
    listPropsBlock row lps = strConcat (lps.map (fun lp => listPropBlock row lp.1 lp.2)) := by
  unfold listPropsBlock
  have h := foldl_emit
    (fun (acc : String) (lp : String × List String) => acc ++ listPropBlock row lp.1 lp.2)
    (fun lp => listPropBlock row lp.1 lp.2) (fun acc lp => rfl) lps ""
  simpa using h

theorem labelsLine_eq (columns lcols : List String) (row : Row) :
    labelsLine columns lcols row =
      if labelsList columns lcols row = [] then ""
      else "labels: [" ++ String.intercalate ", " (labelsList columns lcols row) ++ "]\n" := by
  unfold labelsLine
  by_cases h : labelsList columns lcols row = []
  · simp [h]
  · have he : (labelsList columns lcols row).isEmpty = false := by
      simpa [List.isEmpty_iff] using h
    rw [he]
    simp [h]

/-! ### The frontmatter on a row with no present value, and under an empty
selection -/

theorem strConcat_all_empty {α : Type} (g : α → String) (l : List α)
    (h : ∀ x ∈ l, g x = "") : strConcat (l.map g) = "" := by
  induction l with
  | nil => rfl
  | cons x xs ih =>
    rw [List.map_cons, strConcat_cons, h x (List.mem_cons_self x xs),
      ih (fun y hy => h y (List.mem_cons_of_mem x hy))]
    rfl

theorem propsBlock_missing_selected (columns pcols : List String) (row : Row)
    (h : ∀ c ∈ pcols, rowGet row c = none) : propsBlock columns pcols row = "" := by
  rw [propsBlock_eq]
  have hnil : specPropLines columns pcols row = [] := by
    rw [specPropLines, List.filterMap_eq_nil_iff]
    intro c hc
    rw [h c hc]
    simp [ite_self]
  rw [hnil]
  rfl

theorem listPropValues_missing_selected (row : Row) (cols : List String)
    (h : ∀ c ∈ cols, rowGet row c = none) : listPropValues row cols = [] := by
  rw [listPropValues_eq, specListValues, List.filterMap_eq_nil_iff]
  intro c hc
  rw [h c hc]
  rfl

theorem listPropsBlock_missing_selected (row : Row) (lps : List (String × List String))
    (h : ∀ lp ∈ lps, ∀ c ∈ lp.2, rowGet row c = none) : listPropsBlock row lps = "" := by
  rw [listPropsBlock_eq]
  refine strConcat_all_empty _ _ (fun lp hlp => ?_)
  rw [listPropBlock_eq, listPropValues_missing_selected _ _ (h lp hlp)]
  simp

theorem labelsList_missing_selected (columns lcols : List String) (row : Row)
    (h : ∀ c ∈ lcols, rowGet row c = none) : labelsList columns lcols row = [] := by
  rw [labelsList, List.filterMap_eq_nil_iff]
  intro c hc
  rw [h c hc]
  simp [ite_self]

theorem labelsLine_missing_selected (columns lcols : List String) (row : Row)
    (h : ∀ c ∈ lcols, rowGet row c = none) : labelsLine columns lcols row = "" := by
  rw [labelsLine_eq, labelsList_missing_selected _ _ _ h]
  simp

/-- When every cell a frontmatter selection points at is missing — the
property columns, every list-property's source columns, and the label
columns — the whole frontmatter block is empty, whatever the rest of the
row holds. -/
theorem frontmatter_missing_selected (cfg : Config) (columns : List String) (row : Row)
    (hp : ∀ c ∈ cfg.properties_cols, rowGet row c = none)
    (hl : ∀ lp ∈ cfg.list_properties, ∀ c ∈ lp.2, rowGet row c = none)
    (hb : ∀ c ∈ cfg.labels_cols, rowGet row c = none) :
    frontmatter cfg columns row = "" := by
  unfold frontmatter
  rw [propsBlock_missing_selected _ _ _ hp, listPropsBlock_missing_selected _ _ hl,
    labelsLine_missing_selected _ _ _ hb]
  rfl

theorem frontmatter_empty_selection (cfg : Config) (columns : List String) (row : Row)
    (hp : cfg.properties_cols = []) (hl : cfg.list_properties = [])
    (hb : cfg.labels_cols = []) : frontmatter cfg columns row = "" := by
  unfold frontmatter
  rw [hp, hl, hb]
  rfl

/-! ### The dict `markdown_files`: keys stay distinct, assignment overwrites -/

theorem dictLookup_cons (e : String × String) (d : List (String × String)) (k' : String) :
    dictLookup (e :: d) k' = if e.1 = k' then some e.2 else dictLookup d k' := by
  by_cases h : e.1 = k'
  · simp [dictLookup, List.find?_cons, h]
  · simp [dictLookup, List.find?_cons, h]

theorem dictLookup_map_replace (d : List (String × String)) (k v k' : String) :
    dictLookup (d.map (fun e => if e.1 == k then (k, v) else e)) k' =
      if k' = k then (if d.any (fun e => e.1 == k) then some v else none)
      else dictLookup d k' := by
  induction d with
  | nil => by_cases h : k' = k <;> simp [dictLookup, h]
  | cons e es ih =>
    simp only [List.map_cons, List.any_cons]
    rw [dictLookup_cons, dictLookup_cons]
    by_cases hek : e.1 = k
    · simp only [if_pos (beq_iff_eq.mpr hek)]
      by_cases hk' : k' = k
      · subst hk'
        simp [ih, beq_iff_eq.mpr hek]
      · have hne : ¬ ((k, v).1 = k') := fun h => hk' h.symm
        rw [if_neg hne, ih, if_neg hk', if_neg hk',
          if_neg (show ¬ (e.1 = k') from by rw [hek]; exact fun h => hk' h.symm)]
    · have hb : (e.1 == k) = false := by simpa [beq_eq_false_iff_ne] using hek
      simp only [hb, Bool.false_eq_true, if_false, Bool.false_or]
      by_cases hee : e.1 = k'
      · have hk' : ¬ k' = k := fun h => hek (by rw [hee, h])
        rw [if_pos hee, if_neg hk', if_pos hee]
      · rw [if_neg hee, ih]
        by_cases hk' : k' = k
        · rw [if_pos hk', if_pos hk']
        · rw [if_neg hk', if_neg hk', if_neg hee]

theorem dictLookup_insert (d : List (String × String)) (k v k' : String) :
    dictLookup (dictInsert d k v) k' = if k' = k then some v else dictLookup d k' := by
  unfold dictInsert
  by_cases hmem : d.any (fun e => e.1 == k)
  · rw [if_pos hmem, dictLookup_map_replace]
    by_cases hk' : k' = k
    · rw [if_pos hk', if_pos hmem, if_pos hk']
    · rw [if_neg hk', if_neg hk']
  · rw [if_neg hmem]
    unfold dictLookup
    rw [List.find?_append]
    by_cases hk' : k' = k
    · subst hk'
      have hnone : d.find? (fun e => e.1 == k') = none := by
        rw [List.find?_eq_none]
        intro x hx hbx
        exact hmem (List.any_eq_true.mpr ⟨x, hx, hbx⟩)
      rw [hnone]
      simp [List.find?_cons]
    · have hone : List.find? (fun e => e.1 == k') [(k, v)] = none := by
        have hb : (k == k') = false := by
          simpa [beq_eq_false_iff_ne] using fun h => hk' h.symm
        simp [List.find?_cons, hb]
      rw [hone]
      simp [if_neg hk']

theorem dictInsert_fst (d : List (String × String)) (k v : String) :
    (dictInsert d k v).map Prod.fst =
      if d.any (fun e => e.1 == k) then d.map Prod.fst else d.map Prod.fst ++ [k] := by
  unfold dictInsert
  by_cases hmem : d.any (fun e => e.1 == k)
  · rw [if_pos hmem, if_pos hmem, List.map_map]
    apply List.map_congr_left
    intro e he
    by_cases hek : e.1 = k
    · simp [Function.comp, beq_iff_eq.mpr hek, hek]
    · have hb : (e.1 == k) = false := by simpa [beq_eq_false_iff_ne] using hek
      simp [Function.comp, hb]
  · rw [if_neg hmem, if_neg hmem, List.map_append]
    rfl

theorem dictInsert_nodupKeys (d : List (String × String)) (k v : String)
    (h : (d.map Prod.fst).Nodup) : ((dictInsert d k v).map Prod.fst).Nodup := by
  rw [dictInsert_fst]
  by_cases hmem : d.any (fun e => e.1 == k)
  · rw [if_pos hmem]; exact h
  · rw [if_neg hmem, List.nodup_append]
    refine ⟨h, List.nodup_singleton k, ?_⟩
    intro a ha hb
    simp only [List.mem_singleton] at hb
    subst hb
    apply hmem
    rw [List.any_eq_true]
    obtain ⟨e, he, hfst⟩ := List.mem_map.mp ha
    exact ⟨e, he, beq_iff_eq.mpr hfst⟩

/-! ### The generation loop -/

theorem transformGo_isSome (cfg : Config) (columns : List String) :
    ∀ (rs : List Row) (acc : List (String × String)),
      (transformGo cfg columns rs acc).isSome
        = rs.all (fun r => (rowGet r cfg.filename_col).isSome) := by
  intro rs
  induction rs with
  | nil => intro acc; rfl
  | cons r rs ih =>
    intro acc
    cases hv : rowGet r cfg.filename_col with
    | none => simp [transformGo, genRow, hv]
    | some fval => simp [transformGo, genRow, hv, ih]

/-- What one key of the produced dict holds: the content of the LAST loop
iteration that wrote this key (`find?` on the reversed entry list), and
otherwise whatever the starting accumulator held. -/
theorem transformGo_lookup (cfg : Config) (columns : List String) :
    ∀ (rs : List Row) (acc m : List (String × String)),
      transformGo cfg columns rs acc = some m → ∀ k,
      dictLookup m k =
        (((rs.filterMap (genRow cfg columns)).reverse.find? (fun e => e.1 == k)).map
          Prod.snd).or (dictLookup acc k) := by
  intro rs
  induction rs with
  | nil =>
    intro acc m h k
    simp only [transformGo] at h
    cases h
    simp
  | cons r rs ih =>
    intro acc m h k
    cases hg : genRow cfg columns r with
    | none => simp [transformGo, hg] at h
    | some pc =>
      have h' : transformGo cfg columns rs (dictInsert acc pc.1 pc.2) = some m := by
        simpa [transformGo, hg] using h
      rw [ih (dictInsert acc pc.1 pc.2) m h' k, dictLookup_insert]
      rw [List.filterMap_cons, hg]
      rw [List.reverse_cons, List.find?_append]
      have hmapor : ∀ (a b : Option (String × String)),
          Option.map Prod.snd (a.or b) = (Option.map Prod.snd a).or (Option.map Prod.snd b) := by
        intro a b; cases a <;> simp
      rw [hmapor, Option.or_assoc]
      congr 1
      by_cases hk : pc.1 = k
      · simp [List.find?_cons, beq_iff_eq.mpr hk, hk]
      · have hb : (pc.1 == k) = false := by simpa [beq_eq_false_iff_ne] using hk
        have hkk : ¬ k = pc.1 := fun hq => hk hq.symm
        simp [List.find?_cons, hb, hkk]

theorem transformGo_nodupKeys (cfg : Config) (columns : List String) :
    ∀ (rs : List Row) (acc m : List (String × String)),
      transformGo cfg columns rs acc = some m →
      (acc.map Prod.fst).Nodup → (m.map Prod.fst).Nodup := by
  intro rs
  induction rs with
  | nil =>
    intro acc m h hn
    simp only [transformGo] at h
    cases h
    exact hn
  | cons r rs ih =>
    intro acc m h hn
    cases hg : genRow cfg columns r with
    | none => simp [transformGo, hg] at h
    | some pc =>
      have h' : transformGo cfg columns rs (dictInsert acc pc.1 pc.2) = some m := by
        simpa [transformGo, hg] using h
      exact ih (dictInsert acc pc.1 pc.2) m h' (dictInsert_nodupKeys acc pc.1 pc.2 hn)

theorem flatten_singletons {α β : Type} (g : α → β) (l : List α) :
    (l.map (fun x => [g x])).flatten = l.map g := by
  induction l with
  | nil => rfl
  | cons x xs ih => simp [ih]

theorem buildZip_eq_map (m : List (String × String)) (out : String) :
    buildZip m out = m.map (fun e => (ospRelpath e.1 out, e.2)) := by
  unfold buildZip
  have h := foldl_emit_list
    (fun (acc : List (String × String)) (e : String × String) =>
      acc ++ [(ospRelpath e.1 out, e.2)])
    (fun e => [(ospRelpath e.1 out, e.2)]) (fun acc e => rfl) m []
  rw [h, flatten_singletons]
  rfl

/-! ### Concrete fixtures (the spec's worked example and variants) -/

/-- The spec's example row. -/
def exRow : Row :=
  [("Title", some "My Doc"), ("Folder", some "Guides"),
   ("Author", some "Jane"), ("Tags", some "python,ml")]

/-- The spec's example configuration: filename Title, folder Folder,
properties [Author], labels [Tags], default output root. -/
def exCfg : Config :=
  { output_dir := "generated_markdown", filename_col := "Title", folder_col := "Folder",
    properties_cols := ["Author"], list_properties := [], labels_cols := ["Tags"],
    sections_cols := [] }

def exDs : Dataset :=
  { columns := ["Title", "Folder", "Author", "Tags"], rows := [exRow] }

/-- The example markdown text of `exRow`. -/
def exContent : String := "---\nauthor: Jane\nlabels: [python,ml]\n---\n\n"

def exMap : List (String × String) :=
  [("generated_markdown/guides/my_doc.md", exContent)]

/-- A second row computing the same output path as `exRow` with a different
author and no tags. -/
def exRowB : Row :=
  [("Title", some "My Doc"), ("Folder", some "Guides"),
   ("Author", some "Joan"), ("Tags", none)]

def exDsDup : Dataset :=
  { columns := ["Title", "Folder", "Author", "Tags"], rows := [exRow, exRowB] }

def exContentB : String := "---\nauthor: Joan\n---\n\n"

def exMapB : List (String × String) :=
  [("generated_markdown/guides/my_doc.md", exContentB)]

/-- `exCfg` with no folder column selected. -/
def exCfgNoFolder : Config :=
  { exCfg with folder_col := "None" }

/-- A configuration with nothing selected for the frontmatter or sections. -/
def exCfgBare : Config :=
  { output_dir := "generated_markdown", filename_col := "Title", folder_col := "None",
    properties_cols := [], list_properties := [], labels_cols := [],
    sections_cols := [] }

/-- A row with a present filename cell whose selected frontmatter cells are
all missing. -/
def exRowC : Row := [("Title", some "X"), ("Author", none), ("Tags", none)]

/-- A configuration selecting a property column, a list-property and a label
column, all of which are missing on `exRowC`. -/
def exCfgSel : Config :=
  { output_dir := "generated_markdown", filename_col := "Title", folder_col := "None",
    properties_cols := ["Author"], list_properties := [("products", ["Tags"])],
    labels_cols := ["Tags"], sections_cols := [] }

/-- A row whose filename cell is missing. -/
def exRowBad : Row := [("Title", none), ("Folder", some "Guides")]

def exDsBad : Dataset :=
  { columns := ["Title", "Folder", "Author", "Tags"], rows := [exRowBad] }

/-! ### The claims -/

/-- C1: for every row whose filename cell is present, the generated filename
is the cell value lowercased with every space replaced by an underscore,
followed by `.md` (the source's replace-then-lower order computes exactly
this, by `pyLower_pyReplaceSpace`). -/
theorem c1_filename_normalization (cfg : Config) (columns : List String) (row : Row)
    (fval : String) (h : rowGet row cfg.filename_col = some fval) :
    genRow cfg columns row
      = some (filePath cfg row (pyReplaceSpace (pyLower fval) ++ ".md"),
          mdContent cfg columns row) := by
  unfold genRow
  rw [h]
  simp only [Option.map_some']
  rw [mkFilename, pyLower_pyReplaceSpace]

theorem c1_filename_normalization_witness :
    pyReplaceSpace (pyLower "My Doc") ++ ".md" = "my_doc.md"
    ∧ genRow exCfg exDs.columns exRow
        = some (filePath exCfg exRow (pyReplaceSpace (pyLower "My Doc") ++ ".md"),
            mdContent exCfg exDs.columns exRow) :=
  ⟨by decide, c1_filename_normalization exCfg exDs.columns exRow "My Doc" (by decide)⟩

/-- C2: with a folder column configured (selectbox not `"None"`) and a present
folder value, the output path interposes the normalized folder name between
the output root and the filename; with no folder column configured or a
missing folder value, the path is the filename directly under the root. -/
theorem c2_output_path (cfg : Config) (row : Row) (fn : String) :
    (∀ fv, cfg.folder_col ≠ "None" → rowGet row cfg.folder_col = some fv →
      filePath cfg row fn
        = ospJoin (ospJoin cfg.output_dir (pyReplaceSpace (pyLower fv))) fn)
    ∧ ((cfg.folder_col = "None" ∨ rowGet row cfg.folder_col = none) →
      filePath cfg row fn = ospJoin cfg.output_dir fn) := by
  constructor
  · intro fv hne hv
    unfold filePath
    rw [if_pos hne, hv]
    simp only [pyLower_pyReplaceSpace]
  · intro h
    unfold filePath
    rcases h with h | h
    · rw [if_neg (not_not_intro h)]
    · by_cases hne : cfg.folder_col ≠ "None"
      · rw [if_pos hne, h]
      · rw [if_neg hne]

theorem c2_output_path_witness :
    filePath exCfg exRow "my_doc.md" = "generated_markdown/guides/my_doc.md"
    ∧ filePath exCfgNoFolder exRow "my_doc.md" = "generated_markdown/my_doc.md" := by
  constructor
  · have h := (c2_output_path exCfg exRow "my_doc.md").1 "Guides" (by decide) (by decide)
    rw [h]; decide
  · have h := (c2_output_path exCfgNoFolder exRow "my_doc.md").2 (Or.inl rfl)
    rw [h]; decide

/-- C3: the archive is exactly the image of the produced mapping, entry by
entry in order — so each path key contributes exactly one archive entry
(mapping keys are pairwise distinct), the entry's path is the key made
relative to the configured output root, and its content is the mapping's
markdown text. -/
theorem c3_zip_roundtrip (cfg : Config) (ds : Dataset) (m : List (String × String))
    (h : transform cfg ds = some m) :
    buildZip m cfg.output_dir
        = m.map (fun e => (ospRelpath e.1 cfg.output_dir, e.2))
    ∧ (m.map Prod.fst).Nodup
    ∧ ∀ k v, (k, v) ∈ m →
        (ospRelpath k cfg.output_dir, v) ∈ buildZip m cfg.output_dir := by
  refine ⟨buildZip_eq_map m cfg.output_dir, ?_, ?_⟩
  · exact transformGo_nodupKeys cfg ds.columns ds.rows [] m h (by simp)
  · intro k v hkv
    rw [buildZip_eq_map]
    exact List.mem_map_of_mem (fun e => (ospRelpath e.1 cfg.output_dir, e.2)) hkv

theorem c3_zip_roundtrip_witness :
    buildZip exMap "generated_markdown"
        = exMap.map (fun e => (ospRelpath e.1 "generated_markdown", e.2))
    ∧ (exMap.map Prod.fst).Nodup := by
  have h := c3_zip_roundtrip exCfg exDs exMap (by decide)
  exact ⟨h.1, h.2.1⟩

/-- C4: the produced mapping has pairwise-distinct path keys (so at most one
entry per output path), and the entry stored under any key is the document of
the LAST row in input order that computed that path — later duplicate paths
silently overwrite earlier ones. -/
theorem c4_last_write_wins (cfg : Config) (ds : Dataset) (m : List (String × String))
    (h : transform cfg ds = some m) :
    (m.map Prod.fst).Nodup
    ∧ ∀ k, dictLookup m k =
        ((ds.rows.filterMap (genRow cfg ds.columns)).reverse.find?
          (fun e => e.1 == k)).map Prod.snd := by
  constructor
  · exact transformGo_nodupKeys cfg ds.columns ds.rows [] m h (by simp)
  · intro k
    have hl := transformGo_lookup cfg ds.columns ds.rows [] m h k
    simpa [dictLookup] using hl

theorem c4_last_write_wins_witness :
    (exMapB.map Prod.fst).Nodup
    ∧ dictLookup exMapB "generated_markdown/guides/my_doc.md" = some exContentB := by
  have h := c4_last_write_wins exCfg exDsDup exMapB (by decide)
  refine ⟨h.1, ?_⟩
  rw [h.2 "generated_markdown/guides/my_doc.md"]
  decide

/-- C5: every generated document is the leading `---` delimiter line, then
the frontmatter block, then the trailing `---` delimiter followed by a blank
line, then the sections; and the frontmatter block is empty — with both
delimiters still present — when no property, list-property or label is
selected, or when every cell the selection points at (the property columns,
each list-property's source columns, and the label columns) is missing on
the row. -/
theorem c5_frontmatter_delimiters (cfg : Config) (columns : List String) (row : Row) :
    mdContent cfg columns row
      = "---\n" ++ frontmatter cfg columns row ++ "---\n\n"
        ++ sectionsBlock columns cfg.sections_cols row
    ∧ ((cfg.properties_cols = [] ∧ cfg.list_properties = [] ∧ cfg.labels_cols = []) →
        frontmatter cfg columns row = "")
    ∧ ((∀ c ∈ cfg.properties_cols, rowGet row c = none) →
        (∀ lp ∈ cfg.list_properties, ∀ c ∈ lp.2, rowGet row c = none) →
        (∀ c ∈ cfg.labels_cols, rowGet row c = none) →
        frontmatter cfg columns row = "") := by
  refine ⟨rfl, ?_, ?_⟩
  · rintro ⟨hp, hl, hb⟩
    exact frontmatter_empty_selection cfg columns row hp hl hb
  · intro hp hl hb
    exact frontmatter_missing_selected cfg columns row hp hl hb

theorem c5_frontmatter_delimiters_witness :
    rowGet exRowC exCfgSel.filename_col = some "X"
    ∧ frontmatter exCfgSel ["Title", "Author", "Tags"] exRowC = ""
    ∧ mdContent exCfgSel ["Title", "Author", "Tags"] exRowC = "---\n---\n\n" := by
  have h := c5_frontmatter_delimiters exCfgSel ["Title", "Author", "Tags"] exRowC
  have hempty := h.2.2 (by decide) (by decide) (by decide)
  refine ⟨by decide, hempty, ?_⟩
  rw [h.1, hempty]
  decide

/-- C6: the property part of the frontmatter is exactly the concatenation,
in selection order, of one `key: value` line (key lowercased) per property
column whose cell is present; a column with a missing cell contributes
nothing and the row is still processed. -/
theorem c6_property_lines (columns : List String) (row : Row) :
    (∀ pcols, propsBlock columns pcols row = strConcat (specPropLines columns pcols row))
    ∧ (∀ c cs v, c ∈ columns → rowGet row c = some v →
        specPropLines columns (c :: cs) row
          = (pyLower c ++ ": " ++ v ++ "\n") :: specPropLines columns cs row)
    ∧ (∀ c cs, rowGet row c = none →
        specPropLines columns (c :: cs) row = specPropLines columns cs row) :=
  ⟨fun pcols => propsBlock_eq columns pcols row,
   fun c cs v hc hv => specPropLines_cons_some columns row c cs v hc hv,
   fun c cs hv => specPropLines_cons_skip columns row c cs (Or.inr hv)⟩

theorem c6_property_lines_witness :
    propsBlock ["Title", "Folder", "Author", "Tags"] ["Author"] exRow = "author: Jane\n"
    ∧ specPropLines ["Title", "Folder", "Author", "Tags"] ["Author"] exRow
        = ["author: Jane\n"] := by
  have h := c6_property_lines ["Title", "Folder", "Author", "Tags"] exRow
  constructor
  · rw [h.1 ["Author"]]; decide
  · rw [h.2.1 "Author" [] "Jane" (by decide) (by decide)]; decide

/-- C7: a list-property collects the present values of its source columns in
column order, each stripped of surrounding whitespace; a non-empty collection
is emitted as `name:` followed by one (indented) `- value` line per value,
and an empty collection emits nothing. -/
theorem c7_list_property (row : Row) (name : String) (cols : List String) :
    listPropValues row cols = specListValues row cols
    ∧ listPropBlock row name cols
      = (if listPropValues row cols = [] then ""
        else name ++ ":\n"
          ++ strConcat ((listPropValues row cols).map (fun v => "  - " ++ v ++ "\n"))) :=
  ⟨listPropValues_eq row cols, listPropBlock_eq row name cols⟩

/-- C8: the labels of a row are the present values of the selected label
columns in selection order; when non-empty they are emitted as the single
inline flow list line `labels: [v1, v2, ...]`, when empty no labels line is
emitted; and the spec's worked example row produces exactly the path
`guides/my_doc.md` (relative to the output root) with frontmatter
`author: Jane` and `labels: [python,ml]`. -/
theorem c8_labels_and_example :
    (∀ (columns lcols : List String) (row : Row),
      labelsLine columns lcols row
        = if labelsList columns lcols row = [] then ""
          else "labels: ["
            ++ String.intercalate ", " (labelsList columns lcols row) ++ "]\n")
    ∧ transform exCfg exDs
        = some [("generated_markdown/guides/my_doc.md",
            "---\nauthor: Jane\nlabels: [python,ml]\n---\n\n")]
    ∧ ospRelpath "generated_markdown/guides/my_doc.md" "generated_markdown"
        = "guides/my_doc.md" :=
  ⟨labelsLine_eq, by decide, by decide⟩

/-- C9: the batch succeeds exactly when every row's filename cell is present —
one missing filename cell aborts the whole run with no mapping produced
(the `AttributeError` of line 147), and any other missing cell only drops its
own field. -/
theorem c9_missing_filename_fatal (cfg : Config) (ds : Dataset) :
    (transform cfg ds).isSome = true
      ↔ ∀ row ∈ ds.rows, (rowGet row cfg.filename_col).isSome = true := by
  rw [transform, transformGo_isSome]
  exact List.all_eq_true

theorem c9_missing_filename_fatal_witness :
    (transform exCfg exDs).isSome = true ∧ transform exCfg exDsBad = none := by
  constructor
  · exact (c9_missing_filename_fatal exCfg exDs).mpr (by decide)
  · decide

/-- C10: on a dataset with zero rows the generation loop itself succeeds with
an empty mapping, but the preview step `list(markdown_files.items())[0]`
raises an uncaught `IndexError`, so the run as a whole does not complete. -/
theorem c10_empty_dataset_preview_fatal (cfg : Config) (columns : List String) :
    transform cfg { columns := columns, rows := [] } = some []
    ∧ generateWithPreview cfg { columns := columns, rows := [] } = none :=
  ⟨rfl, rfl⟩

end S2M
